import Mathlib

/-!
Verification of the job-search aggregation engine.

Shallow embedding of the aggregation and relevance-filtering code:
the orchestrator route `get_job_suggestions` (src/routers/services.py),
the Arbeitnow adapter (src/services/arbeitnow_api.py), the Adzuna adapter
(src/services/google_jobs_api.py), the JSearch adapter
(src/services/jsearch_api.py) and the ScrapingDog adapter
(src/services/scrapingdog_linkedin.py).

Network calls are modelled by passing the observable provider response as an
explicit parameter (an `Except` value: `.error` is a transport/parse failure
raised by `requests`, `.ok` carries the decoded JSON payload).  String
operations mirror the Python ones over `List Char` so that every definition
evaluates inside the kernel: `pyLower` is `str.lower`, `pyTrim` is
`str.strip`, `pyWords` is `str.split()` (split on whitespace, no empty
tokens), and `strContains hay pat` is the Python substring test
`pat in hay`.
-/

/-- Lowercase of a string, character by character (Python `str.lower()` on
the ASCII fragment the tables use). -/
def pyLower (s : String) : String := ⟨s.data.map Char.toLower⟩

/-- Strip leading and trailing whitespace (Python `str.strip()`). -/
def pyTrim (s : String) : String :=
  ⟨((s.data.dropWhile Char.isWhitespace).reverse.dropWhile Char.isWhitespace).reverse⟩

/-- Helper for `pyWords`: split a character list on whitespace, accumulating
the current (reversed) word. -/
def pyWordsAux : List Char → List Char → List String
  | [], acc => if acc.isEmpty then [] else [⟨acc.reverse⟩]
  | c :: cs, acc =>
    if c.isWhitespace then
      if acc.isEmpty then pyWordsAux cs [] else ⟨acc.reverse⟩ :: pyWordsAux cs []
    else pyWordsAux cs (c :: acc)

/-- Python `str.split()` with no argument: split on runs of whitespace,
empty tokens dropped. -/
def pyWords (s : String) : List String := pyWordsAux s.data []

/-- Does `hay` start with `pat`? -/
def startsWithChars : List Char → List Char → Bool
  | _, [] => true
  | [], _ :: _ => false
  | h :: hs, p :: ps => h == p && startsWithChars hs ps

/-- Does the character list `hay` contain `pat` as a contiguous sublist? -/
def hasSubChars : List Char → List Char → Bool
  | [], pat => pat.isEmpty
  | c :: hs, pat => startsWithChars (c :: hs) pat || hasSubChars hs pat

/-- Python substring test: `strContains hay pat` is `pat in hay`. -/
def strContains (hay pat : String) : Bool := hasSubChars hay.data pat.data

/-- Join a list of strings with a separator (Python `sep.join(xs)`). -/
def joinSep (sep : String) : List String → String
  | [] => ""
  | [s] => s
  | s :: rest => s ++ sep ++ joinSep sep rest

/-- Replace commas and hyphens by spaces
(Python `s.replace(",", " ").replace("-", " ")`). -/
def replaceCommaHyphen (s : String) : String :=
  ⟨s.data.map (fun c => if c == ',' || c == '-' then ' ' else c)⟩

/-- First value in an association list whose key satisfies no transformation;
Python `dict.get(k, default)` over the table in insertion order. -/
def tableGet (table : List (String × String)) (key : String) (dflt : String) : String :=
  match table.find? (fun kv => kv.1 == key) with
  | some kv => kv.2
  | none => dflt

/-- Lookup in an association list with list values (Python `dict.get(k)`). -/
def tableFind (table : List (String × List String)) (key : String) :
    Option (List String) :=
  (table.find? (fun kv => kv.1 == key)).map (·.2)

/-- The standardized job record built by every provider adapter (the common
schema of the `standardized_job` dictionaries).  Keys a given adapter does
not emit are modelled by the default value (adapters never read keys they
did not write, and downstream reads use `.get` with the same defaults). -/
structure Job where
  title : String := ""
  company : String := ""
  location : String := ""
  city : String := ""
  state : String := ""
  country : String := ""
  description : String := ""
  url : String := ""
  posted_date : String := ""
  employment_type : String := ""
  salary_min : Option Int := none
  salary_max : Option Int := none
  currency : Option String := none
  is_remote : Bool := false
  job_id : String := ""
  tags : List String := []
  source : String := ""
deriving DecidableEq

/-- Identity key of a job.  Modelled from the spec §3: the source-specific
job id if present, else the lowercased, whitespace-trimmed (title, company)
pair.  This is the vocabulary of claims about deduplication; the routers
never compute it. -/
inductive IdKey where
  | byId (id : String)
  | byTitleCompany (title company : String)
deriving DecidableEq

/-- Compute the spec §3 identity key of a standardized job. -/
def identityKey (j : Job) : IdKey :=
  if j.job_id ≠ "" then .byId j.job_id
  else .byTitleCompany (pyLower (pyTrim j.title)) (pyLower (pyTrim j.company))

/-- Truthiness of the optional `location` argument in the Python code
(`if location:`): `None` and the empty string are falsy. -/
def locTruthy : Option String → Bool
  | none => false
  | some s => s != ""

/-- Observable outcome of one orchestrator run: the returned list plus
whether and with which `limit` argument the secondary (Adzuna) provider was
invoked. -/
structure SuggestionTrace where
  result : List Job
  secondaryCalled : Bool
  secondaryLimit : Nat
deriving DecidableEq

/-- The orchestrator `get_job_suggestions` (src/routers/services.py lines
129-162), abstracted over the two provider calls: `primary` is the list the
Arbeitnow call returned, `secondary n` is the list the Adzuna call would
return when invoked with `limit := n` (query, location and experience level
are fixed for the request, so only the limit varies between the two call
sites). -/
def get_job_suggestions (primary : List Job) (secondary : Nat → List Job)
    (location : Option String) (limit : Nat) : SuggestionTrace :=
  if primary.length == 0 && locTruthy location then
    { result := (primary ++ secondary limit).take limit
      secondaryCalled := true
      secondaryLimit := limit }
  else if decide (primary.length < limit) && !locTruthy location then
    { result := (primary ++ secondary (limit - primary.length)).take limit
      secondaryCalled := true
      secondaryLimit := limit - primary.length }
  else
    { result := primary.take limit
      secondaryCalled := false
      secondaryLimit := 0 }

/-- Raw Arbeitnow job item as decoded from the provider JSON (fields the
code reads via `job.get(...)`; a missing string field and an empty one are
interchangeable everywhere the code touches them, so absence is modelled by
the default value). -/
structure RawArbJob where
  title : String := ""
  description : String := ""
  company_name : String := ""
  location : String := ""
  city : String := ""
  country : String := ""
  url : String := ""
  slug : String := ""
  created_at : String := ""
  remote : Bool := false
  tags : List String := []
  job_types : List String := []
deriving DecidableEq

/-- Stopword list of `_filter_jobs_by_keywords`
(src/services/arbeitnow_api.py line 88). -/
def arbStopwords : List String :=
  ["and", "or", "the", "a", "an", "in", "at", "of", "for", "with"]

/-- Synonym table `tech_variations` (src/services/arbeitnow_api.py lines
92-109). -/
def techVariations : List (String × List String) := [
  ("js", ["javascript", "js"]),
  ("javascript", ["javascript", "js"]),
  ("python", ["python", "django", "flask"]),
  ("react", ["react", "reactjs", "react.js"]),
  ("vue", ["vue", "vuejs", "vue.js"]),
  ("angular", ["angular", "angularjs"]),
  ("node", ["node", "nodejs", "node.js"]),
  ("ai", ["ai", "artificial intelligence", "machine learning", "ml"]),
  ("ml", ["machine learning", "ml", "ai"]),
  ("data", ["data", "analytics", "scientist"]),
  ("software", ["software", "engineer", "developer", "programming"]),
  ("frontend", ["frontend", "front-end", "ui", "user interface"]),
  ("backend", ["backend", "back-end", "api", "server"]),
  ("fullstack", ["fullstack", "full-stack", "full stack"]),
  ("devops", ["devops", "dev ops", "infrastructure", "cloud"]),
  ("mobile", ["mobile", "ios", "android", "react native", "flutter"])]

/-- Insert a string into a duplicate-free list, keeping first-insertion
order (the Python code uses a `set`; only membership and cardinality of the
set are ever consumed, so a duplicate-free list is a faithful model). -/
def insertUniq (xs : List String) (x : String) : List String :=
  if x ∈ xs then xs else xs ++ [x]

/-- The `search_terms` set: lowercased whitespace tokens of the keyword
string minus the stopwords (src/services/arbeitnow_api.py lines 85-89). -/
def searchTermsOf (keywords : String) : List String :=
  ((pyWords (pyLower keywords)).filter (fun t => t ∉ arbStopwords)).foldl insertUniq []

/-- The `expanded_terms` set: the search terms plus their synonym-table
expansions (src/services/arbeitnow_api.py lines 111-115). -/
def expandTerms (searchTerms : List String) : List String :=
  searchTerms.foldl
    (fun acc t =>
      match tableFind techVariations t with
      | some vs => vs.foldl insertUniq acc
      | none => acc)
    searchTerms

/-- The `searchable_text` of a job: lowercased title, description, tags and
job types joined by single spaces (src/services/arbeitnow_api.py lines
119-139). -/
def arbSearchableText (j : RawArbJob) : String :=
  joinSep " " [pyLower j.title, pyLower j.description,
    pyLower (joinSep " " j.tags), pyLower (joinSep " " j.job_types)]

/-- Relevance score of a job: the number of distinct expanded terms occurring
in its searchable text (src/services/arbeitnow_api.py lines 141-145). -/
def arbScore (expandedTerms : List String) (j : RawArbJob) : Nat :=
  (expandedTerms.filter (fun t => strContains (arbSearchableText j) t)).length

/-- The jobs the keyword filter keeps, in input order: score positive, or the
search-term set empty (src/services/arbeitnow_api.py line 148). -/
def arbKeptJobs (searchTerms expandedTerms : List String) (jobs : List RawArbJob) :
    List RawArbJob :=
  jobs.filter (fun j => decide (0 < arbScore expandedTerms j) || searchTerms.isEmpty)

/-- The keyword relevance filter `_filter_jobs_by_keywords`
(src/services/arbeitnow_api.py lines 70-156).  Python `list.sort` with
`reverse=True` is a stable descending sort, realized here by
`List.insertionSort` with the reflexive-total relation "left score at least
right score" (which places an inserted element after all earlier elements of
equal score, exactly the stable order). -/
def filter_jobs_by_keywords (jobs : List RawArbJob) (keywords : String) :
    List RawArbJob :=
  if jobs.isEmpty || keywords == "" then jobs
  else
    List.insertionSort
      (fun a b =>
        arbScore (expandTerms (searchTermsOf keywords)) b ≤
          arbScore (expandTerms (searchTermsOf keywords)) a)
      (arbKeptJobs (searchTermsOf keywords) (expandTerms (searchTermsOf keywords)) jobs)

/-- Location alias table of `_normalize_location`
(src/services/arbeitnow_api.py lines 37-66). -/
def arbLocationMappings : List (String × String) := [
  ("tel aviv", "tel aviv"), ("tel-aviv", "tel aviv"), ("telaviv", "tel aviv"),
  ("israel", "israel"), ("jerusalem", "jerusalem"), ("haifa", "haifa"),
  ("new york", "new york"), ("nyc", "new york"), ("sf", "san francisco"),
  ("san francisco", "san francisco"), ("la", "los angeles"),
  ("los angeles", "los angeles"), ("london", "london"), ("paris", "paris"),
  ("berlin", "berlin"), ("munich", "munich"), ("amsterdam", "amsterdam"),
  ("barcelona", "barcelona"), ("madrid", "madrid"), ("rome", "rome"),
  ("milan", "milan"), ("vienna", "vienna"), ("zurich", "zurich"),
  ("stockholm", "stockholm"), ("copenhagen", "copenhagen"), ("oslo", "oslo"),
  ("dublin", "dublin"), ("tokyo", "tokyo")]

/-- Arbeitnow `_normalize_location` (src/services/arbeitnow_api.py lines
21-68): strip, lowercase, then alias-table lookup with pass-through. -/
def arbNormalizeLocation (location : String) : String :=
  if location == "" then location
  else tableGet arbLocationMappings (pyLower (pyTrim location)) (pyLower (pyTrim location))

/-- Fallback city-to-terms table inside `_filter_jobs_by_location`
(src/services/arbeitnow_api.py lines 224-234). -/
def arbLocationFallbackMappings : List (String × List String) := [
  ("tel aviv", ["tel aviv", "israel"]),
  ("washington", ["washington", "dc", "usa", "united states"]),
  ("new york", ["new york", "ny", "nyc", "usa", "united states"]),
  ("san francisco", ["san francisco", "sf", "california", "ca", "usa"]),
  ("london", ["london", "uk", "united kingdom", "england"]),
  ("paris", ["paris", "france"]),
  ("berlin", ["berlin", "germany"]),
  ("munich", ["munich", "münchen", "germany"]),
  ("amsterdam", ["amsterdam", "netherlands"])]

/-- Per-job test of `_filter_jobs_by_location` (src/services/arbeitnow_api.py
lines 176-244): remote-only matching when the query location is
remote/anywhere/global, otherwise keyword word-or-substring matching over the
location fields with the static city-to-terms fallback. -/
def arbLocationPred (location : String) (locationKeywords : List String)
    (j : RawArbJob) : Bool :=
  let jobLocation := pyLower j.location
  let jobCity := pyLower j.city
  let jobCountry := pyLower j.country
  let fullLocationText := pyTrim (jobLocation ++ " " ++ jobCity ++ " " ++ jobCountry)
  let isRemoteJob := j.remote || strContains fullLocationText "remote" ||
    j.tags.any (fun tag => decide (pyLower tag ∈ (["remote", "home office", "homeoffice"] : List String)))
  if pyLower location ∈ (["remote", "anywhere", "global"] : List String) then isRemoteJob
  else
    let kwMatch := locationKeywords.any (fun keyword =>
      decide (2 < keyword.length) &&
      ((pyWords jobLocation).contains keyword || (pyWords jobCity).contains keyword ||
        (pyWords jobCountry).contains keyword ||
        strContains jobLocation keyword || strContains jobCity keyword))
    let mappingMatch :=
      match tableFind arbLocationFallbackMappings (pyLower location) with
      | some expectedTerms => expectedTerms.any (fun term => strContains fullLocationText term)
      | none => false
    kwMatch || mappingMatch

/-- The strict location filter `_filter_jobs_by_location`
(src/services/arbeitnow_api.py lines 158-251). -/
def filter_jobs_by_location (jobs : List RawArbJob) (location : String) :
    List RawArbJob :=
  if jobs.isEmpty || location == "" then jobs
  else
    let normalized := arbNormalizeLocation location
    let locationKeywords := (pyWords normalized).map pyLower
    jobs.filter (arbLocationPred location locationKeywords)

/-- The `level_keywords` table of the inline experience filter
(src/services/arbeitnow_api.py lines 305-312). -/
def arbLevelKeywords : List (String × List String) := [
  ("internship", ["intern", "internship", "trainee"]),
  ("entry_level", ["junior", "entry", "graduate", "entry-level"]),
  ("associate", ["associate", "mid", "intermediate"]),
  ("mid_senior", ["senior", "lead", "principal"]),
  ("director", ["director", "manager", "head"]),
  ("executive", ["executive", "ceo", "cto", "vp", "vice president"])]

/-- Lowercased title-plus-description text used by the Arbeitnow experience
filter (src/services/arbeitnow_api.py lines 318-322). -/
def arbJobText (j : RawArbJob) : String :=
  joinSep " " [pyLower j.title, pyLower j.description]

/-- The inline experience-level filtering of `ArbeitnowService.search_jobs`
(src/services/arbeitnow_api.py lines 303-329): keep jobs whose text contains
a positive level keyword; adopt the filtered list only when it is
non-empty. -/
def arbApplyExperience (experience_level : Option String) (jobs : List RawArbJob) :
    List RawArbJob :=
  match experience_level with
  | none => jobs
  | some lvl =>
    if lvl == "" then jobs
    else
      match tableFind arbLevelKeywords lvl with
      | none => jobs
      | some kws =>
        if (jobs.filter (fun j => kws.any (fun k =>
            strContains (arbJobText j) k))).isEmpty then jobs
        else jobs.filter (fun j => kws.any (fun k => strContains (arbJobText j) k))

/-- Posted-date extraction (src/services/arbeitnow_api.py lines 334-352),
abstracted: an ISO timestamp string reduces to its leading date part; the
numeric-timestamp branch and strict datetime validation are outside the
fragment any claim inspects, and an absent value yields the empty string
exactly as in the source. -/
def arbPostedDate (created_at : String) : String :=
  if created_at == "" then "" else (⟨created_at.data.take 10⟩ : String)

/-- Translation of one raw Arbeitnow item into the standardized record
(src/services/arbeitnow_api.py lines 354-380). -/
def standardizeArb (j : RawArbJob) : Job :=
  { title := j.title
    company := j.company_name
    location := if j.location != "" then j.location else "Remote"
    description := j.description
    url :=
      if j.url != "" then j.url
      else if j.slug != "" then "https://www.arbeitnow.com/jobs/" ++ j.slug
      else ""
    posted_date := arbPostedDate j.created_at
    employment_type := "FULLTIME"
    salary_min := none
    salary_max := none
    currency := none
    is_remote := j.remote
    job_id := j.slug
    tags := j.tags
    source := "arbeitnow" }

/-- The Arbeitnow adapter `ArbeitnowService.search_jobs`
(src/services/arbeitnow_api.py lines 253-390).  The HTTP call is modelled by
`resp`: `.error` for any `requests` exception (caught, empty result) and
`.ok jobs` for the decoded `data` field of the JSON (the `remote=true` query
parameter only shapes which jobs the provider sends back, so it is absorbed
by `resp`). -/
def arbeitnow_search (resp : Except String (List RawArbJob)) (query : String)
    (location : Option String) (experience_level : Option String) (limit : Nat) :
    List Job :=
  match resp with
  | .error _ => []
  | .ok jobs0 =>
    if jobs0.isEmpty then []
    else
      let jobs1 :=
        if query != "" && pyTrim query != "" then filter_jobs_by_keywords jobs0 query
        else jobs0
      let jobs2 :=
        if locTruthy location &&
            !(decide (pyLower (location.getD "") ∈ (["remote", "anywhere", "global"] : List String)))
        then filter_jobs_by_location jobs1 (location.getD "")
        else jobs1
      let jobs3 := arbApplyExperience experience_level jobs2
      (jobs3.take limit).map standardizeArb

/-- Raw Adzuna result item (fields read by the transformation loop,
src/services/google_jobs_api.py lines 142-195; the nested `location` and
`company` dictionaries are flattened to the fields the code extracts). -/
structure RawAdzJob where
  title : String := ""
  company_display_name : String := ""
  location_display_name : String := ""
  location_area_head : String := ""
  description : String := ""
  redirect_url : String := ""
  created : String := ""
  contract_type : Option String := none
  salary_min : Option Int := none
  salary_max : Option Int := none
  id : String := ""
deriving DecidableEq

/-- The `country_mapping` table of `AdzunaJobsService.search_jobs`, in
insertion order (src/services/google_jobs_api.py lines 42-74); the code scans
it in order and takes the first key occurring in the lowercased location. -/
def adzunaCountryMapping : List (String × String) := [
  ("washington", "us"), ("united states", "us"), ("usa", "us"),
  ("new york", "us"), ("california", "us"), ("texas", "us"), ("florida", "us"),
  ("london", "gb"), ("uk", "gb"), ("united kingdom", "gb"),
  ("manchester", "gb"), ("birmingham", "gb"),
  ("berlin", "de"), ("germany", "de"), ("munich", "de"), ("hamburg", "de"),
  ("paris", "fr"), ("france", "fr"), ("lyon", "fr"), ("marseille", "fr"),
  ("amsterdam", "nl"), ("netherlands", "nl"), ("rotterdam", "nl"),
  ("toronto", "ca"), ("canada", "ca"), ("vancouver", "ca"), ("montreal", "ca"),
  ("sydney", "au"), ("australia", "au"), ("melbourne", "au"), ("brisbane", "au")]

/-- Country routing of the Adzuna adapter (src/services/google_jobs_api.py
lines 76-92): `some code` means the request goes to that country endpoint,
`none` means the adapter returns the empty list without issuing any HTTP
request (the unsupported Tel Aviv / Israel case). -/
def adzunaCountryCode (location : Option String) : Option String :=
  let fromTable :=
    match location with
    | some loc =>
      if loc != "" then
        (adzunaCountryMapping.find? (fun kv => strContains (pyLower loc) kv.1)).map (·.2)
      else none
    | none => none
  match fromTable with
  | some code => some code
  | none =>
    match location with
    | some loc =>
      if loc != "" &&
          (strContains (pyLower loc) "tel aviv" || strContains (pyLower loc) "israel")
      then none
      else some "us"
    | none => some "us"

/-- Translation of one raw Adzuna item into the standardized record
(src/services/google_jobs_api.py lines 142-195). -/
def standardizeAdz (country_code : String) (j : RawAdzJob) : Job :=
  { title := j.title
    company := j.company_display_name
    location :=
      if j.location_display_name != "" then j.location_display_name
      else j.location_area_head
    description := (⟨j.description.data.take 500⟩ : String) ++ "..."
    url := j.redirect_url
    posted_date := if j.created != "" then (⟨j.created.data.take 10⟩ : String) else ""
    employment_type := j.contract_type.getD "FULLTIME"
    salary_min := j.salary_min
    salary_max := j.salary_max
    currency := some (if country_code == "us" then "USD" else "EUR")
    is_remote :=
      strContains (pyLower j.title) "remote" ||
      strContains (pyLower j.description) "remote" ||
      strContains (pyLower j.description) "work from home" ||
      strContains (pyLower j.description) "wfh"
    job_id := j.id
    tags := []
    source := "adzuna" }

/-- The Adzuna adapter `AdzunaJobsService.search_jobs`
(src/services/google_jobs_api.py lines 23-205).  `resp` models the HTTP
call: `.error` for a `requests` exception, `.ok none` for a JSON body with
no `results` field, `.ok (some rs)` for a body carrying the result list.
When the country routing yields `none` the function returns the empty list
before the request is issued, so the result is independent of `resp`. -/
def adzuna_search (resp : Except String (Option (List RawAdzJob))) (query : String)
    (location : Option String) (experience_level : Option String) (limit : Nat) :
    List Job :=
  match adzunaCountryCode location with
  | none => []
  | some cc =>
    match resp with
    | .error _ => []
    | .ok none => []
    | .ok (some results) =>
      if results.isEmpty then []
      else (results.take limit).map (standardizeAdz cc)

/-- The orchestrator composed with the real Arbeitnow and Adzuna adapter
embeddings: `get_job_suggestions` of src/routers/services.py with its two
provider calls expanded to the adapter code, parameterized over the two
providers' HTTP responses. -/
def suggestJobsPipeline (arbResp : Except String (List RawArbJob))
    (adzResp : Except String (Option (List RawAdzJob)))
    (keywords : String) (location : Option String) (experience_level : Option String)
    (limit : Nat) : SuggestionTrace :=
  get_job_suggestions
    (arbeitnow_search arbResp keywords location experience_level limit)
    (fun n => adzuna_search adzResp keywords location experience_level n)
    location limit

/-- Raw JSearch result item (the `job_*` fields the transformation and
filters read, src/services/jsearch_api.py lines 290-380). -/
structure RawJJob where
  job_id : String := ""
  job_title : String := ""
  employer_name : String := ""
  job_city : String := ""
  job_state : String := ""
  job_country : String := ""
  job_description : String := ""
  job_apply_link : String := ""
  job_posted_at_datetime_utc : String := ""
  job_employment_type : String := ""
  job_min_salary : Option Int := none
  job_max_salary : Option Int := none
  job_salary_currency : Option String := none
  job_is_remote : Bool := false
deriving DecidableEq

/-- Location alias table of `JSearchService._normalize_location`
(src/services/jsearch_api.py lines 40-57). -/
def jsearchLocationMappings : List (String × String) := [
  ("tel aviv", "Tel Aviv, Israel"), ("tel-aviv", "Tel Aviv, Israel"),
  ("telaviv", "Tel Aviv, Israel"), ("israel", "Israel"),
  ("jerusalem", "Jerusalem, Israel"), ("haifa", "Haifa, Israel"),
  ("new york", "New York, NY"), ("nyc", "New York, NY"),
  ("sf", "San Francisco, CA"), ("san francisco", "San Francisco, CA"),
  ("la", "Los Angeles, CA"), ("los angeles", "Los Angeles, CA"),
  ("london", "London, UK"), ("paris", "Paris, France"),
  ("berlin", "Berlin, Germany"), ("tokyo", "Tokyo, Japan")]

/-- JSearch `_normalize_location` (src/services/jsearch_api.py lines 24-60):
strip, then case-insensitive alias lookup with the stripped original as
fallback. -/
def jNormalizeLocation (location : String) : String :=
  if location == "" then location
  else tableGet jsearchLocationMappings (pyLower (pyTrim location)) (pyTrim location)

/-- The `experience_mappings` table of `_get_experience_keywords`
(src/services/jsearch_api.py lines 72-79). -/
def jExperienceMappings : List (String × String) := [
  ("internship", "intern internship student"),
  ("entry_level", "entry level junior graduate new grad"),
  ("mid_level", "mid level experienced"),
  ("mid_senior", "senior experienced lead"),
  ("senior", "senior lead principal staff"),
  ("executive", "director executive VP manager")]

/-- JSearch `_get_experience_keywords` (src/services/jsearch_api.py lines
62-81). -/
def jGetExperienceKeywords (experience_level : String) : String :=
  tableGet jExperienceMappings (pyLower experience_level) ""

/-- English-speaking regions table (src/services/jsearch_api.py lines
100-104). -/
def jEnglishRegions : List String := [
  "united states", "usa", "us", "america",
  "canada", "uk", "united kingdom", "england", "scotland", "wales",
  "australia", "new zealand", "ireland", "south africa"]

/-- US states and major cities table (src/services/jsearch_api.py lines
107-111). -/
def jUsRegions : List String := [
  "new york", "california", "texas", "florida", "washington",
  "seattle", "san francisco", "los angeles", "chicago", "boston",
  "atlanta", "denver", "austin", "miami", "philadelphia"]

/-- JSearch `_should_add_experience_to_query` (src/services/jsearch_api.py
lines 83-118): true for absent locations and for locations containing an
English-region substring. -/
def jShouldAddExperience (location : Option String) : Bool :=
  match location with
  | none => true
  | some loc =>
    if loc == "" then true
    else (jEnglishRegions ++ jUsRegions).any (fun region => strContains (pyLower loc) region)

/-- The anti-pattern table of `_filter_jobs_by_experience`
(src/services/jsearch_api.py lines 597-604). -/
def jAntiPatterns : List (String × List String) := [
  ("internship", ["senior", "lead", "principal", "director", "manager", "experienced"]),
  ("entry_level", ["senior", "lead", "principal", "director", "sr", "staff"]),
  ("mid_level", ["intern", "junior", "new grad"]),
  ("mid_senior", ["intern", "junior", "new grad", "entry"]),
  ("senior", ["intern", "junior", "new grad", "entry", "associate"]),
  ("executive", ["intern", "junior", "entry", "associate"])]

/-- Lowercased title-plus-description text of a standardized job
(src/services/jsearch_api.py line 608). -/
def jJobText (j : Job) : String := pyLower (j.title ++ " " ++ j.description)

/-- Positive experience-keyword match (src/services/jsearch_api.py line
611). -/
def jHasPositive (experience_keywords : List String) (j : Job) : Bool :=
  experience_keywords.any (fun k => strContains (jJobText j) (pyLower k))

/-- Negative (anti-pattern) match (src/services/jsearch_api.py lines
614-615). -/
def jHasNegative (anti_keywords : List String) (j : Job) : Bool :=
  anti_keywords.any (fun k => strContains (jJobText j) k)

/-- JSearch `_filter_jobs_by_experience` (src/services/jsearch_api.py lines
577-622): keep a job iff it has a positive keyword match or no anti-pattern
match. -/
def filter_jobs_by_experience (jobs : List Job) (experience_level : String) :
    List Job :=
  if jobs.isEmpty || experience_level == "" then jobs
  else if (pyWords (jGetExperienceKeywords experience_level)).isEmpty then jobs
  else
    jobs.filter (fun j =>
      jHasPositive (pyWords (jGetExperienceKeywords experience_level)) j ||
      !(jHasNegative ((tableFind jAntiPatterns (pyLower experience_level)).getD []) j))

/-- Common words removed from location keywords by the light filter
(src/services/jsearch_api.py line 548). -/
def jCommonWords : List String := ["in", "the", "at", "of", "and", "or", "a", "an"]

/-- The `location_keywords` set of the light location filter
(src/services/jsearch_api.py lines 542-549): words of the lowercased
original and normalized locations with commas and hyphens as separators,
minus the common words. -/
def jLocationKeywords (original_location normalized_location : String) : List String :=
  (([original_location, normalized_location].map pyLower).foldl
      (fun acc loc => (pyWords (replaceCommaHyphen loc)).foldl insertUniq acc) []).filter
    (fun w => w ∉ jCommonWords)

/-- Searchable location text of the light filter
(src/services/jsearch_api.py lines 556-560). -/
def jLightLocationText (j : Job) : String :=
  joinSep " " [pyLower j.location, pyLower j.city, pyLower j.country]

/-- Priority test of the light filter: location-keyword match or remote
(src/services/jsearch_api.py lines 563-564). -/
def jLightIsPriority (location_keywords : List String) (j : Job) : Bool :=
  location_keywords.any (fun k => strContains (jLightLocationText j) k) ||
  (j.is_remote || strContains (jLightLocationText j) "remote")

/-- JSearch `_light_filter_jobs_by_location` (src/services/jsearch_api.py
lines 526-575): matching jobs first, then non-matching ones truncated to the
hardcoded residue `10 - len(priority_jobs)` (clamped at zero). -/
def light_filter_jobs_by_location (jobs : List Job)
    (original_location normalized_location : String) : List Job :=
  if jobs.isEmpty || original_location == "" then jobs
  else
    (jobs.partition
        (jLightIsPriority (jLocationKeywords original_location normalized_location))).1 ++
      (jobs.partition
          (jLightIsPriority (jLocationKeywords original_location normalized_location))).2.take
        (10 - (jobs.partition
          (jLightIsPriority (jLocationKeywords original_location normalized_location))).1.length)

/-- Identity key of the supplementary-merge deduplication
(src/services/jsearch_api.py line 314): the
(job id, title, employer) triple of the raw item. -/
def jRawKey (j : RawJJob) : String × String × String :=
  (j.job_id, j.job_title, j.employer_name)

/-- Worker of the supplementary-merge deduplication: keep an item iff its
key has not been seen yet (src/services/jsearch_api.py lines 311-317). -/
def jsearchDedupGo (seen : List (String × String × String)) :
    List RawJJob → List RawJJob
  | [] => []
  | j :: js =>
    if jRawKey j ∈ seen then jsearchDedupGo seen js
    else j :: jsearchDedupGo (jRawKey j :: seen) js

/-- The supplementary-merge deduplication of `JSearchService.search_jobs`
(src/services/jsearch_api.py lines 309-318). -/
def jsearchDedup (l : List RawJJob) : List RawJJob := jsearchDedupGo [] l

/-- The `international_indicators` list (src/services/jsearch_api.py lines
296-299). -/
def jInternationalIndicators : List String :=
  ["remote", "worldwide", "global", "international",
   "anywhere", "work from home", "distributed", "virtual"]

/-- Remote/international test applied to the broadened supplementary batch
(src/services/jsearch_api.py lines 290-305). -/
def jIsInternationalJob (j : RawJJob) : Bool :=
  j.job_is_remote ||
  jInternationalIndicators.any (fun ind =>
    strContains (pyLower j.job_title) ind ||
    strContains (pyLower j.job_description) ind)

/-- Non-empty location parts of a raw JSearch item
(src/services/jsearch_api.py lines 352-358). -/
def jLocationParts (j : RawJJob) : List String :=
  (if j.job_city != "" then [j.job_city] else []) ++
  (if j.job_state != "" then [j.job_state] else []) ++
  (if j.job_country != "" then [j.job_country] else [])

/-- Translation of one raw JSearch item into the standardized record
(src/services/jsearch_api.py lines 350-380). -/
def standardizeJ (j : RawJJob) : Job :=
  { title := j.job_title
    company := j.employer_name
    location := joinSep ", " (jLocationParts j)
    city := j.job_city
    state := j.job_state
    country := j.job_country
    description := j.job_description
    url := j.job_apply_link
    posted_date := j.job_posted_at_datetime_utc
    employment_type := j.job_employment_type
    salary_min := j.job_min_salary
    salary_max := j.job_max_salary
    currency := j.job_salary_currency
    is_remote := j.job_is_remote
    job_id := j.job_id
    tags := []
    source := "jsearch" }

/-- The informational guidance record the JSearch adapter fabricates for
under-covered locations (src/services/jsearch_api.py lines 329-346). -/
def jGuidanceJob (normalized_location : String) : Job :=
  { title := "Job Search Tips for " ++ normalized_location
    company := "Job Search Guidance"
    location := normalized_location
    city := ""
    state := ""
    country := ""
    description := "Our current job database focuses primarily on US markets with limited coverage for " ++ normalized_location ++ ". For better results in your region, we recommend: 1) Use local job boards like Jobs.ch (Switzerland), StepStone (Germany), or LinkedIn for international opportunities, 2) Search without location to find remote positions that accept international candidates, 3) Try broader search terms like your profession + \u0027remote\u0027 or \u0027international\u0027, 4) Consider major European cities like London, Berlin, or Amsterdam which may have better coverage."
    url := ""
    posted_date := ""
    employment_type := "Guidance"
    salary_min := none
    salary_max := none
    currency := none
    is_remote := false
    job_id := "guidance"
    tags := []
    source := "system_guidance" }

/-- Normalized location of a JSearch request
(src/services/jsearch_api.py line 233): `None` for a falsy input, the
`_normalize_location` image otherwise. -/
def jsearchNormalizedLocation : Option String → Option String
  | none => none
  | some l => if l == "" then none else some (jNormalizeLocation l)

/-- The "international location" test of `JSearchService.search_jobs`
(src/services/jsearch_api.py lines 269 and 324): a truthy normalized
location outside the English-speaking coverage table. -/
def jsearchInternational (location : Option String) : Bool :=
  locTruthy (jsearchNormalizedLocation location) &&
  !(jShouldAddExperience (jsearchNormalizedLocation location))

/-- The light-location-filter call site of `JSearchService.search_jobs`
(src/services/jsearch_api.py lines 382-386): apply the light filter only
with a truthy location and more than 5 candidates, and adopt its output only
when at least 3 jobs survive. -/
def jsearchLightFilterStage (location normalized_location : Option String)
    (jobs : List Job) : List Job :=
  if locTruthy location && locTruthy normalized_location &&
      decide (5 < jobs.length) then
    if 3 ≤ (light_filter_jobs_by_location jobs (location.getD "")
        (normalized_location.getD "")).length then
      light_filter_jobs_by_location jobs (location.getD "")
        (normalized_location.getD "")
    else jobs
  else jobs

/-- The experience-filter call site of `JSearchService.search_jobs`
(src/services/jsearch_api.py lines 388-392): adopt the filtered list only
when at least 3 jobs survive, otherwise keep the input unchanged. -/
def jsearchExperienceStage (experience_level : Option String) (jobs : List Job) :
    List Job :=
  match experience_level with
  | none => jobs
  | some lvl =>
    if lvl != "" && !jobs.isEmpty then
      if 3 ≤ (filter_jobs_by_experience jobs lvl).length then
        filter_jobs_by_experience jobs lvl
      else jobs
    else jobs

/-- Decoded JSON of the main JSearch request: the `status` field test and the
`data` list (src/services/jsearch_api.py lines 259-265). -/
structure JResp where
  statusOK : Bool := true
  data : List RawJJob := []
deriving DecidableEq

/-- Decoded outcome of the supplementary global request, whose HTTP status is
checked manually instead of raised (src/services/jsearch_api.py lines
282-285). -/
structure JGlobalResp where
  http200 : Bool := true
  statusOK : Bool := true
  data : List RawJJob := []
deriving DecidableEq

/-- The JSearch adapter `JSearchService.search_jobs`
(src/services/jsearch_api.py lines 211-402), parameterized over the two HTTP
responses.  `mainResp = .error` is a `requests` exception on the main call;
a `globalResp = .error` during the supplementary international call is also
caught by the outer handler, emptying the whole result.  The
`enhanced_query`, `num_pages`, `date_posted` and `employment_types`
arguments only shape the outgoing HTTP query and are absorbed by the
response parameters.  The guidance insertion happens while
`standardized_jobs` is still empty (the source checks
`len(standardized_jobs) < 3` before populating the list), so it fires for
every under-covered location. -/
def jsearch_search (mainResp : Except String JResp)
    (globalResp : Except String JGlobalResp) (query : String)
    (location : Option String) (experience_level : Option String) : List Job :=
  let normalized_location := jsearchNormalizedLocation location
  match mainResp with
  | .error _ => []
  | .ok mresp =>
    if !mresp.statusOK then []
    else
      let jobs0 := mresp.data
      let isInternational := jsearchInternational location
      let jobsE : Except String (List RawJJob) :=
        if isInternational then
          match globalResp with
          | .error e => .error e
          | .ok g =>
            if g.http200 && g.statusOK then
              let filtered := g.data.filter jIsInternationalJob
              if !filtered.isEmpty then
                .ok ((jsearchDedup (jobs0 ++ filtered)).take 10)
              else .ok jobs0
            else .ok jobs0
        else .ok jobs0
      match jobsE with
      | .error _ => []
      | .ok jobs =>
        let standardized0 :=
          (if isInternational then [jGuidanceJob (normalized_location.getD "")] else []) ++
          jobs.map standardizeJ
        jsearchExperienceStage experience_level
          (jsearchLightFilterStage location normalized_location standardized0)

/-- Raw ScrapingDog LinkedIn result item (fields read in
src/services/scrapingdog_linkedin.py lines 75-83). -/
structure RawSDJob where
  job_position : String := ""
  company_name : String := ""
  job_location : String := ""
  job_posting_date : String := ""
  job_id : String := ""
  job_link : String := ""
deriving DecidableEq

/-- The `LinkedInJobResponse` schema populated by the ScrapingDog adapter. -/
structure SDJob where
  title : String
  company : String
  location : String
  description : String
  url : String
  posted_date : Option String
deriving DecidableEq

/-- An `HTTPException` as raised by the ScrapingDog adapter: FastAPI status
code plus detail message. -/
structure HTTPError where
  status_code : Nat
  detail : String
deriving DecidableEq

/-- Observable outcome of the ScrapingDog HTTP call: a response with a status
code and decoded body (a non-list JSON body is coerced to the empty list by
the source), a timeout, or a connection error. -/
inductive SDOutcome where
  | response (status_code : Nat) (body : List RawSDJob)
  | timeout
  | connError
deriving DecidableEq

/-- Translation of one raw ScrapingDog item
(src/services/scrapingdog_linkedin.py lines 76-83); an absent
`job_posting_date` yields `None` in the schema field. -/
def sdTranslate (j : RawSDJob) : SDJob :=
  { title := j.job_position
    company := j.company_name
    location := j.job_location
    description := "Posted: " ++ j.job_posting_date ++ " | Job ID: " ++ j.job_id
    url := j.job_link
    posted_date := if j.job_posting_date == "" then none else some j.job_posting_date }

/-- The ScrapingDog adapter `ScrapingDogLinkedInService.search_jobs`
(src/services/scrapingdog_linkedin.py lines 26-105).  Unlike the other
adapters it converts every failure into an `HTTPException` and raises it,
modelled by the `.error` constructor; the request parameters only shape the
outgoing call and are absorbed by `outcome`. -/
def scrapingdog_search (keywords : String) (location : Option String)
    (limit : Option Nat) (outcome : SDOutcome) : Except HTTPError (List SDJob) :=
  match outcome with
  | .timeout => .error ⟨504, "LinkedIn scraper service timeout"⟩
  | .connError => .error ⟨503, "LinkedIn scraper service unavailable"⟩
  | .response status body =>
    if status == 401 then
      .error ⟨503, "LinkedIn scraper service authentication failed - please check API key"⟩
    else if status == 429 then
      .error ⟨429, "LinkedIn scraper service rate limit exceeded"⟩
    else if 400 ≤ status then
      .error ⟨503, "LinkedIn scraper service error: " ++ toString status⟩
    else .ok (body.map sdTranslate)

/-! ## General lemmas -/

theorem pairwise_of_all {α : Type} {R : α → α → Prop} (h : ∀ a b, R a b) :
    ∀ l : List α, l.Pairwise R
  | [] => .nil
  | x :: l => .cons (fun y _ => h x y) (pairwise_of_all h l)

/-- Filtering by an exact score value commutes with `orderedInsert` for the
descending-score relation: the inserted element lands in front of the kept
sublist exactly when its own score matches. -/
theorem filter_orderedInsert {α : Type} (score : α → Nat) (s : Nat) (x : α) :
    ∀ l : List α,
      (List.orderedInsert (fun a b => score b ≤ score a) x l).filter
          (fun a => score a == s) =
        if score x == s then x :: l.filter (fun a => score a == s)
        else l.filter (fun a => score a == s)
  | [] => by
    by_cases hx : score x = s <;> simp [List.orderedInsert, hx]
  | y :: l => by
    rw [List.orderedInsert]
    by_cases h : score y ≤ score x
    · rw [if_pos h]
      by_cases hx : score x = s <;> by_cases hy : score y = s <;>
        simp [List.filter_cons, hx, hy]
    · rw [if_neg h]
      have hlt : score x < score y := Nat.lt_of_not_le h
      rw [List.filter_cons, filter_orderedInsert score s x l]
      by_cases hx : score x = s
      · have hy : ¬ score y = s := by omega
        simp [List.filter_cons, hx, hy]
      · by_cases hy : score y = s <;> simp [List.filter_cons, hx, hy]

/-- Filtering by an exact score value is invariant under the stable
descending insertion sort: elements of any fixed score keep their input
order. -/
theorem filter_insertionSort {α : Type} (score : α → Nat) (s : Nat) :
    ∀ l : List α,
      (List.insertionSort (fun a b => score b ≤ score a) l).filter
          (fun a => score a == s) = l.filter (fun a => score a == s)
  | [] => rfl
  | x :: l => by
    rw [List.insertionSort, filter_orderedInsert score s x,
      filter_insertionSort score s l, List.filter_cons]

/-! ## Claim C1 and C2: the orchestrator fallback policy -/

/-- C1: for every search request handled by the orchestrator, the secondary
(Adzuna) provider is called exactly when (a) the primary returned zero jobs
and a location was supplied, in which case it is queried with the full
requested limit, or (b) the primary returned fewer than the requested limit
and no location was supplied, in which case it is asked for exactly
`limit - len(primary)`; in both cases the secondary batch is appended after
the primary batch; in all other cases the secondary is not called. -/
theorem orchestrator_secondary_call_policy (primary : List Job)
    (secondary : Nat → List Job) (location : Option String) (limit : Nat) :
    ((get_job_suggestions primary secondary location limit).secondaryCalled = true ↔
      ((primary.length = 0 ∧ locTruthy location = true) ∨
        (primary.length < limit ∧ locTruthy location = false))) ∧
    (primary.length = 0 → locTruthy location = true →
      get_job_suggestions primary secondary location limit =
        ⟨(primary ++ secondary limit).take limit, true, limit⟩) ∧
    (locTruthy location = false → primary.length < limit →
      get_job_suggestions primary secondary location limit =
        ⟨(primary ++ secondary (limit - primary.length)).take limit, true,
          limit - primary.length⟩) ∧
    ((get_job_suggestions primary secondary location limit).secondaryCalled = false →
      get_job_suggestions primary secondary location limit =
        ⟨primary.take limit, false, 0⟩) := by
  unfold get_job_suggestions
  split_ifs with h1 h2
  · rw [Bool.and_eq_true, beq_iff_eq] at h1
    refine ⟨?_, ?_, ?_, ?_⟩
    · exact ⟨fun _ => Or.inl ⟨h1.1, h1.2⟩, fun _ => rfl⟩
    · intro _ _; rfl
    · intro hfalse _; rw [h1.2] at hfalse; cases hfalse
    · intro hcalled; cases hcalled
  · rw [Bool.and_eq_true, decide_eq_true_eq, Bool.not_eq_true'] at h2
    refine ⟨?_, ?_, ?_, ?_⟩
    · exact ⟨fun _ => Or.inr ⟨h2.1, h2.2⟩, fun _ => rfl⟩
    · intro hz htrue
      rw [Bool.and_eq_true, beq_iff_eq] at h1
      exact absurd ⟨hz, htrue⟩ h1
    · intro _ _; rfl
    · intro hcalled; cases hcalled
  · rw [Bool.and_eq_true, beq_iff_eq] at h1
    rw [Bool.and_eq_true, decide_eq_true_eq, Bool.not_eq_true'] at h2
    refine ⟨?_, ?_, ?_, ?_⟩
    · constructor
      · intro hfalse; cases hfalse
      · rintro (⟨ha, hb⟩ | ⟨ha, hb⟩)
        · exact absurd ⟨ha, hb⟩ h1
        · exact absurd ⟨ha, hb⟩ h2
    · intro hz htrue; exact absurd ⟨hz, htrue⟩ h1
    · intro hfalse hlt; exact absurd ⟨hlt, hfalse⟩ h2
    · intro _; rfl

/-- Witness for C1: with an empty primary batch and the location "Berlin"
the secondary provider is called. -/
theorem orchestrator_secondary_call_policy_witness :
    (get_job_suggestions [] (fun _ => []) (some "Berlin") 5).secondaryCalled = true :=
  ((orchestrator_secondary_call_policy [] (fun _ => []) (some "Berlin") 5).1).mpr
    (Or.inl ⟨rfl, by decide⟩)

/-- C2: for every request with limit n between 1 and 50, the orchestrator
returns at most n jobs, regardless of what the providers return. -/
theorem orchestrator_result_bounded (primary : List Job)
    (secondary : Nat → List Job) (location : Option String) (limit : Nat)
    (h1 : 1 ≤ limit) (h2 : limit ≤ 50) :
    (get_job_suggestions primary secondary location limit).result.length ≤ limit := by
  unfold get_job_suggestions
  split_ifs <;> exact List.length_take_le _ _

/-- Witness for C2: a run with limit 5 returns at most 5 jobs. -/
theorem orchestrator_result_bounded_witness :
    1 ≤ 5 ∧ 5 ≤ 50 ∧
      (get_job_suggestions [] (fun _ => []) none 5).result.length ≤ 5 :=
  ⟨by decide, by decide,
    orchestrator_result_bounded [] (fun _ => []) none 5 (by decide) (by decide)⟩

/-! ## Claim C10: Adzuna country routing -/

/-- When the routing rejects the location, the Adzuna adapter returns the
empty list whatever the HTTP layer would have answered: no request is
issued. -/
theorem adzuna_early_return (resp : Except String (Option (List RawAdzJob)))
    (query : String) (location : Option String) (experience_level : Option String)
    (limit : Nat) (h : adzunaCountryCode location = none) :
    adzuna_search resp query location experience_level limit = [] := by
  unfold adzuna_search
  rw [h]

/-- C10: Adzuna country routing is total with a US default: a location
containing a country-mapping substring is routed to that entry's country
(the first matching entry in table order); otherwise a location containing
"tel aviv" or "israel" makes the adapter return the empty list without
issuing any HTTP request; every other location, including an absent or empty
one, is silently routed to "us". -/
theorem adzuna_routing_total (loc : String) :
    (adzunaCountryCode none = some "us") ∧
    (adzunaCountryCode (some "") = some "us") ∧
    (∀ k c, loc ≠ "" →
      adzunaCountryMapping.find? (fun kv => strContains (pyLower loc) kv.1) =
        some (k, c) →
      adzunaCountryCode (some loc) = some c ∧ (k, c) ∈ adzunaCountryMapping ∧
        strContains (pyLower loc) k = true) ∧
    (loc ≠ "" →
      adzunaCountryMapping.find? (fun kv => strContains (pyLower loc) kv.1) = none →
      (strContains (pyLower loc) "tel aviv" = true ∨
        strContains (pyLower loc) "israel" = true) →
      adzunaCountryCode (some loc) = none) ∧
    (loc ≠ "" →
      adzunaCountryMapping.find? (fun kv => strContains (pyLower loc) kv.1) = none →
      strContains (pyLower loc) "tel aviv" = false →
      strContains (pyLower loc) "israel" = false →
      adzunaCountryCode (some loc) = some "us") ∧
    (∀ (resp : Except String (Option (List RawAdzJob))) (query : String)
        (experience_level : Option String) (limit : Nat),
      adzunaCountryCode (some loc) = none →
      adzuna_search resp query (some loc) experience_level limit = []) := by
  refine ⟨rfl, by decide, ?_, ?_, ?_,
    fun resp query experience_level limit h =>
      adzuna_early_return resp query (some loc) experience_level limit h⟩
  · intro k c hne hfind
    have hb : (loc != "") = true := bne_iff_ne.mpr hne
    refine ⟨?_, List.mem_of_find?_eq_some hfind, by simpa using List.find?_some hfind⟩
    simp [adzunaCountryCode, hb, hfind]
  · intro hne hfind hta
    have hb : (loc != "") = true := bne_iff_ne.mpr hne
    have hor : (strContains (pyLower loc) "tel aviv" ||
        strContains (pyLower loc) "israel") = true := by
      rcases hta with h | h <;> simp [h]
    simp [adzunaCountryCode, hb, hfind, hor]
  · intro hne hfind h1 h2
    have hb : (loc != "") = true := bne_iff_ne.mpr hne
    simp [adzunaCountryCode, hb, hfind, h1, h2]

/-- Witness for C10: "Berlin" matches the table entry ("berlin", "de") and is
routed to the German endpoint. -/
theorem adzuna_routing_total_witness :
    adzunaCountryCode (some "Berlin") = some "de" ∧
      ("berlin", "de") ∈ adzunaCountryMapping ∧
      strContains (pyLower "Berlin") "berlin" = true :=
  (adzuna_routing_total "Berlin").2.2.1 "berlin" "de" (by decide) (by decide)

/-! ## Claim C5: the Tel Aviv scenario -/

/-- Raw Arbeitnow fixture: a Berlin job which the strict location filter
drops for a Tel Aviv query, so the primary returns zero results for that
location. -/
def arbBerlinRaw : RawArbJob :=
  { title := "Data Scientist", description := "data analytics team",
    company_name := "Beispiel GmbH", location := "Berlin", slug := "ds-berlin-1" }

/-- Raw Adzuna fixture sharing the job id "X" with `arbPythonRaw`. -/
def adzPythonRaw : RawAdzJob :=
  { title := "Python Engineer", description := "python platform work",
    company_display_name := "ACME", id := "X" }

/-- Counterexample to C5: there is no Tel-Aviv-to-Israel routed query.  The
Adzuna adapter classifies "Tel Aviv" as unsupported (routing `none`) and
returns the empty list even when the provider would have answered with a
job, so no secondary results exist to merge. -/
theorem scenario_b_counterexample :
    adzunaCountryCode (some "Tel Aviv") = none ∧
    adzuna_search (.ok (some [adzPythonRaw])) "data scientist" (some "Tel Aviv")
      none 10 = [] := ⟨by decide, rfl⟩

/-- C5 amended: for keywords "data scientist", location "Tel Aviv", limit 10,
primary returning 0 jobs for that location, the secondary provider is
invoked (with the full limit 10), but it treats Tel Aviv as unsupported and
returns the empty list without issuing a request, so the final result is
empty regardless of the secondary HTTP layer. -/
theorem scenario_b_amended (adzResp : Except String (Option (List RawAdzJob))) :
    suggestJobsPipeline (.ok [arbBerlinRaw]) adzResp "data scientist"
      (some "Tel Aviv") none 10 = ⟨[], true, 10⟩ := by
  have harb : arbeitnow_search (.ok [arbBerlinRaw]) "data scientist"
      (some "Tel Aviv") none 10 = [] := by decide
  have hadz : adzuna_search adzResp "data scientist" (some "Tel Aviv") none 10 = [] :=
    adzuna_early_return adzResp "data scientist" (some "Tel Aviv") none 10 (by decide)
  unfold suggestJobsPipeline
  rw [harb]
  unfold get_job_suggestions
  simp [locTruthy, hadz]

/-! ## Claim C3: deduplication -/

/-- Raw Arbeitnow fixture with job id "X": a python job the keyword filter
keeps. -/
def arbPythonRaw : RawArbJob :=
  { title := "Python Developer", description := "python stuff",
    company_name := "ACME", slug := "X" }

/-- Counterexample to C3: the orchestrator performs no deduplication.  The
primary provider returns a job with id "X"; the secondary provider returns a
different job with the same id "X" (the situation of spec Scenario E); the
merged result contains both records: two distinct jobs with equal identity
keys, and the duplicate is not removed. -/
theorem orchestrator_dedup_counterexample :
    (suggestJobsPipeline (.ok [arbPythonRaw]) (.ok (some [adzPythonRaw]))
        "python" none none 10).result =
      [standardizeArb arbPythonRaw, standardizeAdz "us" adzPythonRaw] ∧
    standardizeArb arbPythonRaw ≠ standardizeAdz "us" adzPythonRaw ∧
    identityKey (standardizeArb arbPythonRaw) =
      identityKey (standardizeAdz "us" adzPythonRaw) :=
  ⟨by decide, by decide, by decide⟩

/-- Sublist property of the JSearch supplementary-merge deduplication: the
output is the input with some later elements removed (no reordering, no
fabrication). -/
theorem jsearchDedupGo_sublist :
    ∀ (l : List RawJJob) (seen), List.Sublist (jsearchDedupGo seen l) l
  | [], _ => List.Sublist.slnil
  | j :: js, seen => by
    unfold jsearchDedupGo
    split
    · exact (jsearchDedupGo_sublist js seen).cons j
    · exact (jsearchDedupGo_sublist js (jRawKey j :: seen)).cons₂ j

/-- Every element kept by the deduplication has an unseen key and is the
first element of the input with its key. -/
theorem jsearchDedupGo_mem_spec :
    ∀ (l : List RawJJob) (seen) (j : RawJJob), j ∈ jsearchDedupGo seen l →
      jRawKey j ∉ seen ∧ l.find? (fun x => jRawKey x == jRawKey j) = some j := by
  intro l
  induction l with
  | nil => intro seen j hj; cases hj
  | cons x xs ih =>
    intro seen j hj
    unfold jsearchDedupGo at hj
    by_cases hx : jRawKey x ∈ seen
    · rw [if_pos hx] at hj
      obtain ⟨hns, hfind⟩ := ih seen j hj
      have hne : (jRawKey x == jRawKey j) = false := by
        rcases h : jRawKey x == jRawKey j with _ | _
        · rfl
        · exact absurd (eq_of_beq h ▸ hx) hns
      refine ⟨hns, ?_⟩
      rw [List.find?_cons_of_neg _ (by simp [hne]), hfind]
    · rw [if_neg hx] at hj
      rcases List.mem_cons.mp hj with rfl | hj
      · exact ⟨hx, List.find?_cons_of_pos _ (by simp)⟩
      · obtain ⟨hns, hfind⟩ := ih (jRawKey x :: seen) j hj
        have hnsx : jRawKey j ∉ seen := fun h => hns (List.mem_cons_of_mem _ h)
        have hne : jRawKey j ≠ jRawKey x := by
          intro h; exact hns (h ▸ List.mem_cons_self _ _)
        refine ⟨hnsx, ?_⟩
        rw [List.find?_cons_of_neg _
          (by simp only [beq_iff_eq]; exact fun h => hne h.symm), hfind]

/-- The deduplication output has pairwise-distinct keys. -/
theorem jsearchDedupGo_keys_nodup :
    ∀ (l : List RawJJob) (seen), ((jsearchDedupGo seen l).map jRawKey).Nodup := by
  intro l
  induction l with
  | nil => intro seen; exact List.nodup_nil
  | cons x xs ih =>
    intro seen
    unfold jsearchDedupGo
    by_cases hx : jRawKey x ∈ seen
    · rw [if_pos hx]; exact ih seen
    · rw [if_neg hx]
      rw [List.map_cons]
      refine List.Nodup.cons ?_ (ih (jRawKey x :: seen))
      intro hmem
      obtain ⟨y, hy, hkey⟩ := List.mem_map.mp hmem
      have := (jsearchDedupGo_mem_spec xs (jRawKey x :: seen) y hy).1
      exact this (hkey ▸ List.mem_cons_self _ _)

/-- Every input key either was already seen or survives into the output. -/
theorem jsearchDedupGo_covers :
    ∀ (l : List RawJJob) (seen) (j : RawJJob), j ∈ l →
      jRawKey j ∈ seen ∨ ∃ k ∈ jsearchDedupGo seen l, jRawKey k = jRawKey j := by
  intro l
  induction l with
  | nil => intro seen j hj; cases hj
  | cons x xs ih =>
    intro seen j hj
    unfold jsearchDedupGo
    by_cases hx : jRawKey x ∈ seen
    · rw [if_pos hx]
      rcases List.mem_cons.mp hj with rfl | hj
      · exact Or.inl hx
      · exact ih seen j hj
    · rw [if_neg hx]
      rcases List.mem_cons.mp hj with rfl | hj
      · exact Or.inr ⟨j, List.mem_cons_self _ _, rfl⟩
      · rcases ih (jRawKey x :: seen) j hj with hmem | ⟨k, hk, hkey⟩
        · rcases List.mem_cons.mp hmem with heq | hmem
          · exact Or.inr ⟨x, List.mem_cons_self _ _, heq.symm⟩
          · exact Or.inl hmem
        · exact Or.inr ⟨k, List.mem_cons_of_mem _ hk, hkey⟩

/-- C3 amended: the orchestrator route merges and truncates without any
deduplication (see the counterexample); merging by key with first-seen-wins
happens only inside the JSearch adapter's supplementary-results merge, whose
key is the (job id, title, employer) triple of the raw items: the merge
output is a sublist of its input with pairwise-distinct keys, every input
key is represented, and each kept record is the first input record carrying
its key. -/
theorem jsearch_dedup_first_seen (l : List RawJJob) :
    List.Sublist (jsearchDedup l) l ∧
    ((jsearchDedup l).map jRawKey).Nodup ∧
    (∀ j ∈ l, ∃ k ∈ jsearchDedup l, jRawKey k = jRawKey j) ∧
    (∀ j ∈ jsearchDedup l, l.find? (fun x => jRawKey x == jRawKey j) = some j) := by
  refine ⟨jsearchDedupGo_sublist l [], jsearchDedupGo_keys_nodup l [], ?_, ?_⟩
  · intro j hj
    rcases jsearchDedupGo_covers l [] j hj with h | h
    · cases h
    · exact h
  · intro j hj
    exact (jsearchDedupGo_mem_spec l [] j hj).2

/-- Raw JSearch fixture. -/
def jjARaw : RawJJob := { job_id := "1", job_title := "A", employer_name := "E" }

/-- Raw JSearch fixture: same key as `jjARaw`, different city. -/
def jjBRaw : RawJJob :=
  { job_id := "1", job_title := "A", employer_name := "E", job_city := "NY" }

/-- Witness for the amended C3: in a list with a duplicated key, the
duplicate's key is still represented in the dedup output. -/
theorem jsearch_dedup_first_seen_witness :
    ∃ k ∈ jsearchDedup [jjARaw, jjBRaw], jRawKey k = jRawKey jjBRaw :=
  (jsearch_dedup_first_seen [jjARaw, jjBRaw]).2.2.1 jjBRaw (by decide)

/-! ## Claim C4: adapter error containment -/

/-- Counterexample to C4: the ScrapingDog adapter raises on an auth failure
(HTTP 401): the call produces a raised `HTTPException` with status 503, not
an empty `.ok` result. -/
theorem scrapingdog_raises_counterexample :
    scrapingdog_search "software engineer" none none (.response 401 []) =
      .error ⟨503,
        "LinkedIn scraper service authentication failed - please check API key"⟩ ∧
    (scrapingdog_search "software engineer" none none (.response 401 [])).isOk
      = false := ⟨rfl, rfl⟩

/-- C4 amended: the Arbeitnow, Adzuna and JSearch adapters never raise past
their boundary: for every location (absent, domestic or international), a
transport/parse failure of their own request and a non-OK JSearch API status
yield the empty list, and on the international path a failing supplementary
request also yields the empty list.  The ScrapingDog adapter instead raises
HTTP exceptions: 504 on timeout, 503 on connection or auth failure, 429 on
rate limiting. -/
theorem adapter_error_containment (e : String) (query : String)
    (location : Option String) (experience_level : Option String) (limit : Nat)
    (g : Except String JGlobalResp) (m : JResp) (keywords : String)
    (sdLocation : Option String) (sdLimit : Option Nat) :
    arbeitnow_search (.error e) query location experience_level limit = [] ∧
    adzuna_search (.error e) query location experience_level limit = [] ∧
    jsearch_search (.error e) g query location experience_level = [] ∧
    (jsearchInternational location = true →
      jsearch_search (.ok m) (.error e) query location experience_level = []) ∧
    jsearch_search (.ok ⟨false, m.data⟩) g query location experience_level = [] ∧
    scrapingdog_search keywords sdLocation sdLimit .timeout =
      .error ⟨504, "LinkedIn scraper service timeout"⟩ ∧
    scrapingdog_search keywords sdLocation sdLimit .connError =
      .error ⟨503, "LinkedIn scraper service unavailable"⟩ ∧
    (∀ body, scrapingdog_search keywords sdLocation sdLimit (.response 401 body) =
      .error ⟨503,
        "LinkedIn scraper service authentication failed - please check API key"⟩) ∧
    (∀ body, scrapingdog_search keywords sdLocation sdLimit (.response 429 body) =
      .error ⟨429, "LinkedIn scraper service rate limit exceeded"⟩) := by
  refine ⟨rfl, ?_, rfl, ?_, rfl, rfl, rfl, fun _ => rfl, fun _ => rfl⟩
  · cases hcc : adzunaCountryCode location <;> simp [adzuna_search, hcc]
  · intro hint
    cases hb : m.statusOK <;> simp [jsearch_search, hint, hb]

/-- Witness for the amended C4: a failing primary request with no location
returns the empty list, and on a concrete international location a failing
supplementary request also returns the empty list. -/
theorem adapter_error_containment_witness :
    arbeitnow_search (.error "connection refused") "python" none none 5 = [] ∧
    jsearchInternational (some "zurich") = true ∧
    jsearch_search (.ok ⟨true, []⟩) (.error "connection refused") "python"
      (some "zurich") none = [] :=
  ⟨(adapter_error_containment "connection refused" "python" none none 5
      (.ok ⟨true, true, []⟩) ⟨true, []⟩ "python" none none).1,
    by decide,
    (adapter_error_containment "connection refused" "python" (some "zurich") none 5
      (.ok ⟨true, true, []⟩) ⟨true, []⟩ "python" none none).2.2.2.1 (by decide)⟩

/-! ## Claim C6: the keyword relevance filter -/

/-- Membership in `insertUniq`. -/
theorem mem_insertUniq (acc : List String) (y x : String) :
    x ∈ insertUniq acc y ↔ x = y ∨ x ∈ acc := by
  unfold insertUniq
  split
  · rename_i h
    constructor
    · exact Or.inr
    · rintro (rfl | hx)
      · exact h
      · exact hx
  · simp [or_comm]

/-- A left fold whose step only ever adds elements keeps every element of
its accumulator. -/
theorem foldl_extends {α : Type} (step : List String → α → List String)
    (hstep : ∀ acc a x, x ∈ acc → x ∈ step acc a) :
    ∀ (l : List α) (acc : List String) (x : String), x ∈ acc → x ∈ l.foldl step acc
  | [], _, _, hx => hx
  | a :: l, acc, x, hx => foldl_extends step hstep l (step acc a) x (hstep acc a x hx)

/-- The expanded term set contains every search term. -/
theorem searchTerms_subset_expandTerms (st : List String) :
    ∀ x ∈ st, x ∈ expandTerms st := by
  intro x hx
  unfold expandTerms
  refine foldl_extends _ ?_ st st x hx
  intro acc a y hy
  cases tableFind techVariations a with
  | none => simpa using hy
  | some vs =>
    simp only
    exact foldl_extends (fun acc v => insertUniq acc v)
      (fun acc v z hz => (mem_insertUniq acc v z).mpr (Or.inr hz)) vs acc y hy

/-- The expanded term set is empty exactly when the search-term set is. -/
theorem expandTerms_eq_nil_iff (st : List String) :
    expandTerms st = [] ↔ st = [] := by
  constructor
  · intro h
    cases st with
    | nil => rfl
    | cons t ts =>
      have := searchTerms_subset_expandTerms (t :: ts) t (List.mem_cons_self t ts)
      rw [h] at this
      cases this
  · rintro rfl
    rfl

/-- C6: the keyword relevance filter returns at most as many jobs as it was
given, all drawn from the input; a job with relevance score 0 is excluded
exactly when the expanded term set is non-empty; when the expanded term set
is empty (keywords consisting only of stopwords) no job is dropped and the
output equals the input; the output is sorted in descending order of
relevance score; and within any fixed score the input order is preserved
(the sort is stable, so ties keep input order). -/
theorem keyword_filter_properties (jobs : List RawArbJob) (keywords : String) :
    (filter_jobs_by_keywords jobs keywords).length ≤ jobs.length ∧
    (∀ j ∈ filter_jobs_by_keywords jobs keywords, j ∈ jobs) ∧
    (expandTerms (searchTermsOf keywords) ≠ [] →
      ∀ j, arbScore (expandTerms (searchTermsOf keywords)) j = 0 →
        j ∉ filter_jobs_by_keywords jobs keywords) ∧
    (∀ j ∈ jobs, 0 < arbScore (expandTerms (searchTermsOf keywords)) j →
      j ∈ filter_jobs_by_keywords jobs keywords) ∧
    (expandTerms (searchTermsOf keywords) = [] →
      filter_jobs_by_keywords jobs keywords = jobs) ∧
    (filter_jobs_by_keywords jobs keywords).Pairwise
      (fun a b => arbScore (expandTerms (searchTermsOf keywords)) b ≤
        arbScore (expandTerms (searchTermsOf keywords)) a) ∧
    (∀ s : Nat,
      (filter_jobs_by_keywords jobs keywords).filter
          (fun j => arbScore (expandTerms (searchTermsOf keywords)) j == s) =
        (arbKeptJobs (searchTermsOf keywords) (expandTerms (searchTermsOf keywords))
            jobs).filter
          (fun j => arbScore (expandTerms (searchTermsOf keywords)) j == s)) := by
  by_cases hearly : (jobs.isEmpty || keywords == "") = true
  · have hF : filter_jobs_by_keywords jobs keywords = jobs := by
      unfold filter_jobs_by_keywords
      rw [if_pos hearly]
    rcases Bool.or_eq_true_iff.mp hearly with hjobs | hkw
    · have hnil : jobs = [] := List.isEmpty_iff.mp hjobs
      subst hnil
      rw [hF]
      refine ⟨Nat.le_refl _, fun j hj => hj, ?_, fun j hj _ => hj, fun _ => rfl, .nil,
        fun s => ?_⟩
      · intro _ j _ hj
        cases hj
      · rfl
    · have hkeq : keywords = "" := by simpa using hkw
      subst hkeq
      have het : expandTerms (searchTermsOf "") = [] := rfl
      rw [hF]
      refine ⟨Nat.le_refl _, fun j hj => hj, ?_, fun j hj _ => hj, fun _ => rfl, ?_,
        fun s => ?_⟩
      · intro hne
        exact absurd het hne
      · refine pairwise_of_all (fun a b => ?_) jobs
        rw [het]
        exact Nat.le_refl 0
      · have hkept : arbKeptJobs (searchTermsOf "") (expandTerms (searchTermsOf ""))
            jobs = jobs := by
          unfold arbKeptJobs
          simp [show searchTermsOf "" = [] from rfl]
        rw [hkept]
  · have hF : filter_jobs_by_keywords jobs keywords =
        List.insertionSort
          (fun a b =>
            arbScore (expandTerms (searchTermsOf keywords)) b ≤
              arbScore (expandTerms (searchTermsOf keywords)) a)
          (arbKeptJobs (searchTermsOf keywords) (expandTerms (searchTermsOf keywords))
            jobs) := by
      unfold filter_jobs_by_keywords
      rw [if_neg hearly]
    haveI : IsTotal RawArbJob
        (fun a b =>
          arbScore (expandTerms (searchTermsOf keywords)) b ≤
            arbScore (expandTerms (searchTermsOf keywords)) a) :=
      ⟨fun a b => Nat.le_total _ _⟩
    haveI : IsTrans RawArbJob
        (fun a b =>
          arbScore (expandTerms (searchTermsOf keywords)) b ≤
            arbScore (expandTerms (searchTermsOf keywords)) a) :=
      ⟨fun _ _ _ hab hbc => Nat.le_trans hbc hab⟩
    refine ⟨?_, ?_, ?_, ?_, ?_, ?_, ?_⟩
    · rw [hF, (List.perm_insertionSort _ _).length_eq]
      exact List.length_filter_le _ _
    · intro j hj
      rw [hF, List.mem_insertionSort] at hj
      exact (List.mem_filter.mp hj).1
    · intro het j hsc hj
      rw [hF, List.mem_insertionSort] at hj
      have hst : searchTermsOf keywords ≠ [] :=
        fun h => het ((expandTerms_eq_nil_iff _).mpr h)
      have hpred := (List.mem_filter.mp hj).2
      rw [hsc] at hpred
      have h2 : ((false : Bool) || (searchTermsOf keywords).isEmpty) = true := hpred
      rw [Bool.false_or] at h2
      exact hst (List.isEmpty_iff.mp h2)
    · intro j hj hsc
      rw [hF, List.mem_insertionSort]
      exact List.mem_filter.mpr ⟨hj, by simp [hsc]⟩
    · intro het
      have hst : searchTermsOf keywords = [] := (expandTerms_eq_nil_iff _).mp het
      have hkept : arbKeptJobs (searchTermsOf keywords)
          (expandTerms (searchTermsOf keywords)) jobs = jobs := by
        unfold arbKeptJobs
        simp [hst]
      rw [hF, hkept]
      refine List.Sorted.insertionSort_eq (pairwise_of_all (fun a b => ?_) jobs)
      rw [het]
      exact Nat.le_refl 0
    · rw [hF]
      exact List.sorted_insertionSort _ _
    · intro s
      rw [hF]
      exact filter_insertionSort
        (arbScore (expandTerms (searchTermsOf keywords))) s _

/-- Witness for C6: with keywords consisting only of stopwords the expanded
term set is empty and the filter returns its input unchanged. -/
theorem keyword_filter_properties_witness :
    expandTerms (searchTermsOf "the and of") = [] ∧
    filter_jobs_by_keywords [arbPythonRaw] "the and of" = [arbPythonRaw] :=
  ⟨by decide,
    (keyword_filter_properties [arbPythonRaw] "the and of").2.2.2.2.1 (by decide)⟩

/-! ## Claim C7: experience-level filtering -/

/-- Raw Arbeitnow fixture containing the positive mid-senior keyword
"senior". -/
def arbSeniorRaw : RawArbJob :=
  { title := "Senior Engineer", description := "owns systems" }

/-- Raw Arbeitnow fixture with neither a positive mid-senior keyword nor any
anti-pattern keyword. -/
def arbGardenerRaw : RawArbJob :=
  { title := "Gardener", description := "tends plants" }

/-- Counterexample to C7: the Arbeitnow adapter's inline experience filter
violates the claimed rule on both counts.  For level mid_senior it drops the
gardener job although that job contains no negative (anti-pattern) keyword,
and it applies the filter although only 1 job survives, which is below the
floor of 3 at which the claim requires the filter to be skipped and the
unfiltered input returned. -/
theorem experience_filter_counterexample :
    arbApplyExperience (some "mid_senior") [arbSeniorRaw, arbGardenerRaw] =
      [arbSeniorRaw] ∧
    arbApplyExperience (some "mid_senior") [arbSeniorRaw, arbGardenerRaw] ≠
      [arbSeniorRaw, arbGardenerRaw] ∧
    (arbApplyExperience (some "mid_senior") [arbSeniorRaw, arbGardenerRaw]).length
      < 3 ∧
    jHasNegative ((tableFind jAntiPatterns "mid_senior").getD [])
      (standardizeArb arbGardenerRaw) = false :=
  ⟨by decide, by decide, by decide, by decide⟩

/-- C7 amended: the JSearch adapter implements the claimed rule: a job is
kept iff its text contains a positive keyword for the level or contains no
anti-pattern keyword, and the call site skips the filter (returning the
input unchanged) whenever the filtered count is below the floor of 3.  The
Arbeitnow adapter's inline filter instead keeps only positive matches and is
skipped only when no job at all matches. -/
theorem experience_filter_amended (jobs : List Job) (lvl : String)
    (hne : jobs ≠ []) (hlvl : lvl ≠ "")
    (hkw : pyWords (jGetExperienceKeywords lvl) ≠ []) :
    (∀ j, j ∈ filter_jobs_by_experience jobs lvl ↔
      (j ∈ jobs ∧ (jHasPositive (pyWords (jGetExperienceKeywords lvl)) j = true ∨
        jHasNegative ((tableFind jAntiPatterns (pyLower lvl)).getD []) j = false))) ∧
    ((filter_jobs_by_experience jobs lvl).length < 3 →
      jsearchExperienceStage (some lvl) jobs = jobs) ∧
    (3 ≤ (filter_jobs_by_experience jobs lvl).length →
      jsearchExperienceStage (some lvl) jobs = filter_jobs_by_experience jobs lvl) ∧
    (∀ (rawJobs : List RawArbJob) (kws : List String),
      tableFind arbLevelKeywords lvl = some kws →
      ((rawJobs.filter (fun j => kws.any (fun k =>
          strContains (arbJobText j) k))).isEmpty = false →
        arbApplyExperience (some lvl) rawJobs =
          rawJobs.filter (fun j => kws.any (fun k => strContains (arbJobText j) k))) ∧
      ((rawJobs.filter (fun j => kws.any (fun k =>
          strContains (arbJobText j) k))).isEmpty = true →
        arbApplyExperience (some lvl) rawJobs = rawJobs)) := by
  have hjE : jobs.isEmpty = false := by
    cases jobs with
    | nil => exact absurd rfl hne
    | cons a l => rfl
  have hlE : (lvl == "") = false := by
    simpa using hlvl
  have hkE : (pyWords (jGetExperienceKeywords lvl)).isEmpty = false := by
    cases h : pyWords (jGetExperienceKeywords lvl) with
    | nil => exact absurd h hkw
    | cons a l => rfl
  have hf : filter_jobs_by_experience jobs lvl =
      jobs.filter (fun j =>
        jHasPositive (pyWords (jGetExperienceKeywords lvl)) j ||
        !(jHasNegative ((tableFind jAntiPatterns (pyLower lvl)).getD []) j)) := by
    unfold filter_jobs_by_experience
    rw [if_neg (by simp [hjE, hlE]), if_neg (by simp [hkE])]
  have hcond : (lvl != "" && !jobs.isEmpty) = true := by
    simp [bne_iff_ne, hlvl, hjE]
  refine ⟨?_, ?_, ?_, ?_⟩
  · intro j
    rw [hf, List.mem_filter]
    constructor
    · rintro ⟨hj, hp⟩
      refine ⟨hj, ?_⟩
      rcases Bool.or_eq_true_iff.mp hp with h | h
      · exact Or.inl h
      · exact Or.inr (by simpa using h)
    · rintro ⟨hj, hp⟩
      refine ⟨hj, ?_⟩
      rcases hp with h | h
      · exact Bool.or_eq_true_iff.mpr (Or.inl h)
      · exact Bool.or_eq_true_iff.mpr (Or.inr (by simp [h]))
  · intro hlen
    simp only [jsearchExperienceStage, hcond, if_true]
    rw [if_neg (by omega)]
  · intro hlen
    simp only [jsearchExperienceStage, hcond, if_true]
    rw [if_pos hlen]
  · intro rawJobs kws hkws
    constructor
    · intro hfne
      simp only [arbApplyExperience, hlE, Bool.false_eq_true, if_false, hkws, hfne]
    · intro hfe
      simp only [arbApplyExperience, hlE, Bool.false_eq_true, if_false, hkws, hfe,
        if_true]

/-- Witness for the amended C7: for level senior over one junior job and one
senior job the filtered count 2 is below the floor, so the JSearch call site
returns the input unchanged. -/
theorem experience_filter_amended_witness :
    (filter_jobs_by_experience
      [{ title := "Senior Dev", source := "jsearch" },
       { title := "Gardener", source := "jsearch" }] "senior").length < 3 ∧
    jsearchExperienceStage (some "senior")
      [{ title := "Senior Dev", source := "jsearch" },
       { title := "Gardener", source := "jsearch" }] =
      [{ title := "Senior Dev", source := "jsearch" },
       { title := "Gardener", source := "jsearch" }] :=
  ⟨by decide,
    (experience_filter_amended
      [{ title := "Senior Dev", source := "jsearch" },
       { title := "Gardener", source := "jsearch" }] "senior"
      (by decide) (by decide) (by decide)).2.1 (by decide)⟩

/-! ## Claim C8: the light location filter -/

/-- Standardized fixture that matches neither a Berlin location keyword nor
the remote test. -/
def parisStdJob : Job :=
  { title := "Platform Engineer", location := "Paris", source := "jsearch" }

/-- Counterexample to C8: eleven non-matching jobs go in and only ten come
out: the eleventh non-matching job is dropped by the light filter, although
the claim says non-matching jobs are kept and no job is unconditionally
dropped.  The truncation bound is the hardcoded constant 10: the JSearch
adapter has no caller-supplied limit parameter that could be respected. -/
theorem light_filter_counterexample :
    (light_filter_jobs_by_location (List.replicate 11 parisStdJob) "berlin"
      "Berlin, Germany").length = 10 ∧
    (List.replicate 11 parisStdJob).length = 11 :=
  ⟨by decide, by decide⟩

/-- C8 amended: the light location filter moves location-matching (or
remote) jobs to the front, never drops a matching job, draws every output
job from the input, and keeps non-matching jobs only up to the hardcoded
residue 10 minus the number of matching jobs; consequently the output length
is at most the larger of 10 and the number of matching jobs. -/
theorem light_filter_amended (jobs : List Job) (orig norm : String)
    (h : orig ≠ "") :
    light_filter_jobs_by_location jobs orig norm =
      jobs.filter (jLightIsPriority (jLocationKeywords orig norm)) ++
        (jobs.filter (fun j =>
            !(jLightIsPriority (jLocationKeywords orig norm) j))).take
          (10 - (jobs.filter (jLightIsPriority (jLocationKeywords orig norm))).length) ∧
    (∀ j ∈ jobs, jLightIsPriority (jLocationKeywords orig norm) j = true →
      j ∈ light_filter_jobs_by_location jobs orig norm) ∧
    (∀ j ∈ light_filter_jobs_by_location jobs orig norm, j ∈ jobs) ∧
    (light_filter_jobs_by_location jobs orig norm).length ≤
      Nat.max 10 (jobs.filter (jLightIsPriority (jLocationKeywords orig norm))).length := by
  have horig : (orig == "") = false := by simpa using h
  have hchar : light_filter_jobs_by_location jobs orig norm =
      jobs.filter (jLightIsPriority (jLocationKeywords orig norm)) ++
        (jobs.filter (fun j =>
            !(jLightIsPriority (jLocationKeywords orig norm) j))).take
          (10 - (jobs.filter (jLightIsPriority (jLocationKeywords orig norm))).length) := by
    cases hje : jobs.isEmpty
    · unfold light_filter_jobs_by_location
      rw [if_neg (by simp [hje, horig]), List.partition_eq_filter_filter]
      rfl
    · have : jobs = [] := List.isEmpty_iff.mp hje
      subst this
      simp [light_filter_jobs_by_location]
  refine ⟨hchar, ?_, ?_, ?_⟩
  · intro j hj hp
    rw [hchar]
    exact List.mem_append_left _ (List.mem_filter.mpr ⟨hj, hp⟩)
  · intro j hj
    rw [hchar] at hj
    rcases List.mem_append.mp hj with hj | hj
    · exact (List.mem_filter.mp hj).1
    · exact (List.mem_filter.mp (List.take_subset _ _ hj)).1
  · rw [hchar, List.length_append, List.length_take]
    have hmax1 : 10 ≤ Nat.max 10
        (jobs.filter (jLightIsPriority (jLocationKeywords orig norm))).length :=
      Nat.le_max_left _ _
    have hmax2 : (jobs.filter (jLightIsPriority (jLocationKeywords orig norm))).length ≤
        Nat.max 10
          (jobs.filter (jLightIsPriority (jLocationKeywords orig norm))).length :=
      Nat.le_max_right _ _
    omega

/-- Witness for the amended C8: a matching Berlin job is kept and moved to
the front past a non-matching job. -/
theorem light_filter_amended_witness :
    ({ title := "Dev", location := "Berlin", source := "jsearch" } : Job) ∈
      light_filter_jobs_by_location
        [parisStdJob, { title := "Dev", location := "Berlin", source := "jsearch" }]
        "berlin" "Berlin, Germany" :=
  (light_filter_amended
      [parisStdJob, { title := "Dev", location := "Berlin", source := "jsearch" }]
      "berlin" "Berlin, Germany" (by decide)).2.1
    { title := "Dev", location := "Berlin", source := "jsearch" }
    (by decide) (by decide)

/-! ## Claim C9: adapters translate provider items -/

set_option maxRecDepth 8000 in
/-- Counterexample to C9: with the location "zurich" (outside the
English-speaking coverage table) and both provider responses carrying zero
items, the JSearch adapter still returns a record: the fabricated
"Job Search Tips" guidance entry with source "system_guidance", which is
not the translation of any item returned by the provider. -/
theorem adapter_fabrication_counterexample :
    jsearch_search (.ok ⟨true, []⟩) (.ok ⟨true, true, []⟩) "data scientist"
        (some "zurich") none = [jGuidanceJob "zurich"] ∧
    (jGuidanceJob "zurich").source = "system_guidance" ∧
    (jGuidanceJob "zurich").source ≠ "jsearch" :=
  ⟨by decide, rfl, by decide⟩

/-- Keyword-filter outputs are drawn from the input. -/
theorem filter_jobs_by_keywords_subset (jobs : List RawArbJob) (kw : String) :
    ∀ j ∈ filter_jobs_by_keywords jobs kw, j ∈ jobs := by
  intro j hj
  unfold filter_jobs_by_keywords at hj
  split at hj
  · exact hj
  · rw [List.mem_insertionSort] at hj
    unfold arbKeptJobs at hj
    exact (List.mem_filter.mp hj).1

/-- Strict-location-filter outputs are drawn from the input. -/
theorem filter_jobs_by_location_subset (jobs : List RawArbJob) (loc : String) :
    ∀ j ∈ filter_jobs_by_location jobs loc, j ∈ jobs := by
  intro j hj
  unfold filter_jobs_by_location at hj
  split at hj
  · exact hj
  · exact (List.mem_filter.mp hj).1

/-- Arbeitnow experience-filter outputs are drawn from the input. -/
theorem arbApplyExperience_subset (e : Option String) (jobs : List RawArbJob) :
    ∀ j ∈ arbApplyExperience e jobs, j ∈ jobs := by
  intro j hj
  unfold arbApplyExperience at hj
  repeat' split at hj
  all_goals first
    | exact hj
    | exact (List.mem_filter.mp hj).1

/-- JSearch experience-filter outputs are drawn from the input. -/
theorem filter_jobs_by_experience_subset (jobs : List Job) (lvl : String) :
    ∀ j ∈ filter_jobs_by_experience jobs lvl, j ∈ jobs := by
  intro j hj
  unfold filter_jobs_by_experience at hj
  repeat' split at hj
  all_goals first
    | exact hj
    | exact (List.mem_filter.mp hj).1

/-- JSearch experience-stage outputs are drawn from the input. -/
theorem jsearchExperienceStage_subset (e : Option String) (jobs : List Job) :
    ∀ j ∈ jsearchExperienceStage e jobs, j ∈ jobs := by
  intro j hj
  unfold jsearchExperienceStage at hj
  repeat' split at hj
  all_goals first
    | exact hj
    | exact filter_jobs_by_experience_subset _ _ j hj

/-- Light-location-filter outputs are drawn from the input. -/
theorem light_filter_subset (jobs : List Job) (o n : String) :
    ∀ j ∈ light_filter_jobs_by_location jobs o n, j ∈ jobs := by
  intro j hj
  unfold light_filter_jobs_by_location at hj
  split at hj
  · exact hj
  · rw [List.partition_eq_filter_filter] at hj
    rcases List.mem_append.mp hj with hj | hj
    · exact (List.mem_filter.mp hj).1
    · exact (List.mem_filter.mp (List.take_subset _ _ hj)).1

/-- Light-filter-stage outputs are drawn from the input. -/
theorem jsearchLightFilterStage_subset (l n : Option String) (jobs : List Job) :
    ∀ j ∈ jsearchLightFilterStage l n jobs, j ∈ jobs := by
  intro j hj
  unfold jsearchLightFilterStage at hj
  repeat' split at hj
  all_goals first
    | exact hj
    | exact light_filter_subset _ _ _ j hj

/-- Provenance through the Arbeitnow adapter: every output record is the
translation of an input item. -/
theorem arbeitnow_provenance (data : List RawArbJob) (query : String)
    (location : Option String) (e : Option String) (limit : Nat) :
    ∀ j ∈ arbeitnow_search (.ok data) query location e limit,
      ∃ raw ∈ data, j = standardizeArb raw := by
  intro j hj
  simp only [arbeitnow_search] at hj
  split at hj
  · cases hj
  · obtain ⟨raw, hraw, rfl⟩ := List.mem_map.mp hj
    refine ⟨raw, ?_, rfl⟩
    have h := arbApplyExperience_subset _ _ raw (List.take_subset _ _ hraw)
    split at h
    · have h2 := filter_jobs_by_location_subset _ _ raw h
      split at h2
      · exact filter_jobs_by_keywords_subset _ _ raw h2
      · exact h2
    · split at h
      · exact filter_jobs_by_keywords_subset _ _ raw h
      · exact h

/-- Provenance through the Adzuna adapter: every output record is the
translation of an input item for the routed country. -/
theorem adzuna_provenance (results : List RawAdzJob) (query : String)
    (location : Option String) (e : Option String) (limit : Nat) (cc : String)
    (hcc : adzunaCountryCode location = some cc) :
    ∀ j ∈ adzuna_search (.ok (some results)) query location e limit,
      ∃ raw ∈ results, j = standardizeAdz cc raw := by
  intro j hj
  simp only [adzuna_search, hcc] at hj
  split at hj
  · cases hj
  · obtain ⟨raw, hraw, rfl⟩ := List.mem_map.mp hj
    exact ⟨raw, List.take_subset _ _ hraw, rfl⟩

/-- Provenance through the JSearch adapter: every output record is either
the fabricated guidance record or the translation of an item from the main
or the supplementary response. -/
theorem jsearch_provenance (m : JResp) (g : JGlobalResp) (query : String)
    (location : Option String) (e : Option String) :
    ∀ j ∈ jsearch_search (.ok m) (.ok g) query location e,
      j = jGuidanceJob ((jsearchNormalizedLocation location).getD "") ∨
      ∃ raw, (raw ∈ m.data ∨ raw ∈ g.data) ∧ j = standardizeJ raw := by
  intro j hj
  simp only [jsearch_search] at hj
  split at hj
  · cases hj
  · split at hj
    · cases hj
    · rename_i jobs heq
      have h := jsearchLightFilterStage_subset _ _ _ j
        (jsearchExperienceStage_subset _ _ j hj)
      rcases List.mem_append.mp h with hg | hm
      · left
        split at hg
        · simpa using hg
        · cases hg
      · right
        obtain ⟨raw, hraw, rfl⟩ := List.mem_map.mp hm
        refine ⟨raw, ?_, rfl⟩
        split at heq
        · split at heq
          · split at heq
            · injection heq with heq
              subst heq
              have h1 := (jsearchDedupGo_sublist _ _).subset
                (List.take_subset _ _ hraw)
              rcases List.mem_append.mp h1 with h1 | h1
              · exact Or.inl h1
              · exact Or.inr (List.mem_of_mem_filter h1)
            · injection heq with heq
              subst heq
              exact Or.inl hraw
          · injection heq with heq
            subst heq
            exact Or.inl hraw
        · injection heq with heq
          subst heq
          exact Or.inl hraw

/-- C9 amended: every record returned by the Arbeitnow or Adzuna adapter is
the translation of an item the provider actually returned (with fixed
fill-ins for missing fields: Arbeitnow defaults the location to "Remote" and
the employment type to "FULLTIME"; Adzuna fabricates the currency from the
routed country and truncates the description); the JSearch adapter returns
translations of provider items except for one fabricated guidance record
prepended for under-covered locations. -/
theorem adapter_translation_provenance (data : List RawArbJob)
    (results : List RawAdzJob) (m : JResp) (g : JGlobalResp) (query : String)
    (location : Option String) (experience_level : Option String) (limit : Nat)
    (cc : String) (hcc : adzunaCountryCode location = some cc) :
    (∀ j ∈ arbeitnow_search (.ok data) query location experience_level limit,
      ∃ raw ∈ data, j = standardizeArb raw) ∧
    (∀ j ∈ adzuna_search (.ok (some results)) query location experience_level limit,
      ∃ raw ∈ results, j = standardizeAdz cc raw) ∧
    (∀ j ∈ jsearch_search (.ok m) (.ok g) query location experience_level,
      j = jGuidanceJob ((jsearchNormalizedLocation location).getD "") ∨
      ∃ raw, (raw ∈ m.data ∨ raw ∈ g.data) ∧ j = standardizeJ raw) :=
  ⟨arbeitnow_provenance data query location experience_level limit,
    adzuna_provenance results query location experience_level limit cc hcc,
    jsearch_provenance m g query location experience_level⟩

/-- Witness for the amended C9: a concrete Arbeitnow run returns exactly the
translation of the single item the provider sent. -/
theorem adapter_translation_provenance_witness :
    standardizeArb arbPythonRaw ∈
      arbeitnow_search (.ok [arbPythonRaw]) "python" none none 10 ∧
    ∃ raw ∈ [arbPythonRaw], standardizeArb arbPythonRaw = standardizeArb raw :=
  ⟨by decide,
    (adapter_translation_provenance [arbPythonRaw] [] ⟨true, []⟩ ⟨true, true, []⟩
        "python" none none 10 "us" (by decide)).1
      (standardizeArb arbPythonRaw) (by decide)⟩
